import Mathlib

/-!
Verification development for nashTubeStress.py: a shallow embedding of the
steady-state conduction solver (Gauss-Seidel / Jacobi relaxation over a
ghost-padded polar grid), its boundary conditions, the solve loop, the
heat-transfer-coefficient estimator, and the pointwise Timoshenko-Goodier
stress formulas, together with theorems settling the frozen claims.

Temperature meshes are modelled as total functions of two natural-number
indices into the reals; the mesh of the source has shape (nt + 2, nr)
(two ghost rows in the angular direction).  Machine floats are modelled by
real numbers.
-/

noncomputable section

namespace NTS

/-- A temperature mesh: entry at angular row i (ghost rows included) and
radial column j.  Shape of interest is (nt + 2) rows by nr columns. -/
abbrev TField := ℕ → ℕ → ℝ

/-- The cylindrical grid of class Grid in the source, keeping only the data
the solver reads: the resolution, the radial step and the per-cell iteration
constants.  A coefficient function evaluated at mesh cell (i, j) stands for
the source array entry [i - 1, j - 1], matching the offset used by both the
numpy slice expression and the inline C loop. -/
structure Grid where
  nr : ℕ
  nt : ℕ
  dr : ℝ
  dr2 : ℝ
  twoDrR : ℕ → ℕ → ℝ
  dTheta2R2 : ℕ → ℕ → ℝ
  dnr : ℕ → ℕ → ℝ

/-- Grid construction from the source constructor: uniform radial sampling
r_j = rMin + j * dr with dr = (rMax - rMin)/(nr - 1), angular step
dTheta = (thetaMax - thetaMin)/(nt - 1), and the cached constants
twoDrR = 2 dr r, dr2 = dr^2, dTheta2R2 = dTheta^2 r^2,
dnr = 2/dr2 + 2/dTheta2R2.  The coefficient arrays are constant along the
angular index because meshR is. -/
def mkGrid (nr nt : ℕ) (rMin rMax thetaMin thetaMax : ℝ) : Grid :=
  let dr : ℝ := (rMax - rMin) / ((nr : ℝ) - 1)
  let dTheta : ℝ := (thetaMax - thetaMin) / ((nt : ℝ) - 1)
  let rj : ℕ → ℝ := fun j => rMin + (j : ℝ) * dr
  { nr := nr
    nt := nt
    dr := dr
    dr2 := dr ^ 2
    twoDrR := fun _ j => 2 * dr * rj j
    dTheta2R2 := fun _ j => dTheta ^ 2 * rj j ^ 2
    dnr := fun _ j => 2 / dr ^ 2 + 2 / (dTheta ^ 2 * rj j ^ 2) }

/-- Number of mesh rows, ghost rows included: the source meshT has
shape (nt + 2, nr). -/
def Grid.ntM (g : Grid) : ℕ := g.nt + 2

/-- The five-point stencil value of Solver.numpyStep / Solver.inlineStep at
cell (i, j), reading neighbours from the field T. -/
def stencil (g : Grid) (T : TField) (i j : ℕ) : ℝ :=
  ((T i (j + 1) - T i (j - 1)) / g.twoDrR i j +
   (T i (j - 1) + T i (j + 1)) / g.dr2 +
   (T (i - 1) j + T (i + 1) j) / g.dTheta2R2 i j) / g.dnr i j

/-- Whether mesh cell (i, j) lies in the interior slice [1:-1, 1:-1]:
rows 1..nt, columns 1..nr-2. -/
def interior (g : Grid) (i j : ℕ) : Prop :=
  1 ≤ i ∧ i ≤ g.nt ∧ 1 ≤ j ∧ j ≤ g.nr - 2

instance (g : Grid) (i j : ℕ) : Decidable (interior g i j) := by
  unfold interior; infer_instance

/-- The simultaneous (Jacobi) interior update of Solver.numpyStep: the numpy
expression evaluates its right-hand side fully from the current field before
assigning into the interior slice. -/
def interiorUpd (g : Grid) (T : TField) : TField :=
  fun i j => if interior g i j then stencil g T i j else T i j

/-- First assignment of Solver.symmetryBC: meshT[0, 1:-1] = meshT[2, 1:-1].
Only the interior columns 1..nr-2 of the ghost row are written. -/
def symmetryBC1 (g : Grid) (T : TField) : TField :=
  fun i j => if i = 0 ∧ 1 ≤ j ∧ j ≤ g.nr - 2 then T 2 j else T i j

/-- Solver.symmetryBC: after the first assignment, the second one
meshT[-1, 1:-1] = meshT[-3, 1:-1] reads the already-updated mesh. -/
def symmetryBC (g : Grid) (T : TField) : TField :=
  fun i j =>
    if i = g.ntM - 1 ∧ 1 ≤ j ∧ j ≤ g.nr - 2 then symmetryBC1 g T (g.ntM - 3) j
    else symmetryBC1 g T i j

/-- Solver.computeError: the L2 norm of (meshT - old_T) flattened over the
whole mesh, ghost rows and boundary columns included. -/
def computeError (g : Grid) (Tnew Told : TField) : ℝ :=
  Real.sqrt (∑ i ∈ Finset.range g.ntM, ∑ j ∈ Finset.range g.nr,
    (Tnew i j - Told i j) ^ 2)

/-- Solver.tubeExtTemp: meshT[:, -1] = T_ext. -/
def tubeExtTemp (g : Grid) (T_ext : ℝ) (T : TField) : TField :=
  fun i j => if j = g.nr - 1 then T_ext else T i j

/-- Solver.tubeExtConv: meshT[:, -1] =
(meshT[:, -2] + (dr h_ext / k) T_ext) / (1 + dr h_ext / k). -/
def tubeExtConv (g : Grid) (h_ext k T_ext : ℝ) (T : TField) : TField :=
  fun i j =>
    if j = g.nr - 1 then
      (T i (g.nr - 2) + (g.dr * h_ext / k) * T_ext) / (1 + g.dr * h_ext / k)
    else T i j

/-- Solver.tubeExtFlux: meshT[:, -1] = dr CG / k + meshT[:, -2]. -/
def tubeExtFlux (g : Grid) (CG k : ℝ) (T : TField) : TField :=
  fun i j => if j = g.nr - 1 then g.dr * CG / k + T i (g.nr - 2) else T i j

/-- Solver.tubeIntTemp: meshT[:, 0] = T_int. -/
def tubeIntTemp (T_int : ℝ) (T : TField) : TField :=
  fun i j => if j = 0 then T_int else T i j

/-- Solver.tubeIntFlux: meshT[:, 0] = dr CG / k + meshT[:, 1]. -/
def tubeIntFlux (g : Grid) (CG k : ℝ) (T : TField) : TField :=
  fun i j => if j = 0 then g.dr * CG / k + T i 1 else T i j

/-- Solver.tubeIntConv: with U = 1 / (R_f + 1 / h_int),
meshT[:, 0] = (meshT[:, 1] + (dr U / k) T_int) / (1 + dr U / k). -/
def tubeIntConv (g : Grid) (R_f h_int k T_int : ℝ) (T : TField) : TField :=
  fun i j =>
    if j = 0 then
      (T i 1 + (g.dr * (1 / (R_f + 1 / h_int)) / k) * T_int) /
        (1 + g.dr * (1 / (R_f + 1 / h_int)) / k)
    else T i j

/-- The solver configuration the relaxation steps read: the grid plus the
two assigned boundary-condition callables (fields extBC and intBC of the
Solver object, assigned from the catalogue above before solving). -/
structure SolverP where
  g : Grid
  extBC : TField → TField
  intBC : TField → TField

/-- Solver.numpyStep: save old_T, apply extBC then intBC, assign the numpy
stencil expression into the interior slice (evaluated simultaneously from
the pre-assignment field), re-apply symmetryBC, and return the L2 error of
the whole mesh against old_T. -/
def numpyStep (p : SolverP) (T : TField) : TField × ℝ :=
  (symmetryBC p.g (interiorUpd p.g (p.intBC (p.extBC T))),
   computeError p.g (symmetryBC p.g (interiorUpd p.g (p.intBC (p.extBC T)))) T)

/-- Row-major list of interior cells (i, j), i = 1..nt, j = 1..nr-2,
the traversal order of the inline C loop. -/
def cells (g : Grid) : List (ℕ × ℕ) :=
  (List.range' 1 g.nt).flatMap fun i =>
    (List.range' 1 (g.nr - 2)).map fun j => (i, j)

/-- Pointwise update of one mesh entry. -/
def updTF (T : TField) (i j : ℕ) (v : ℝ) : TField :=
  fun i2 j2 => if i2 = i ∧ j2 = j then v else T i2 j2

/-- The in-place Gauss-Seidel sweep of the inline C code: visit the interior
cells in row-major order, overwrite each with the stencil of the current
(partially updated) field, and accumulate the sum of squared per-cell
changes. -/
def gsLoop (g : Grid) : List (ℕ × ℕ) → TField → ℝ → TField × ℝ
  | [], T, err => (T, err)
  | (i, j) :: rest, T, err =>
      let tmp := T i j
      let v := stencil g T i j
      gsLoop g rest (updTF T i j v) (err + (v - tmp) ^ 2)

/-- Solver.inlineStep: apply extBC then intBC, run the in-place C loop over
the interior cells accumulating err, re-apply symmetryBC, and return
sqrt(err).  Unlike numpyStep no pre-sweep copy is taken: the returned error
covers only the interior-cell changes made by the loop itself. -/
def inlineStep (p : SolverP) (T : TField) : TField × ℝ :=
  (symmetryBC p.g (gsLoop p.g (cells p.g) (p.intBC (p.extBC T)) 0).1,
   Real.sqrt (gsLoop p.g (cells p.g) (p.intBC (p.extBC T)) 0).2)

/-- Solver.blitzStep: save old_T, apply extBC then intBC, evaluate the same
slice expression via weave.blitz - which compiles it to an elementwise
in-place traversal without temporaries, so already-updated values are read
by later cells exactly as in the inline loop - then symmetryBC and the
full-mesh L2 error against old_T. -/
def blitzStep (p : SolverP) (T : TField) : TField × ℝ :=
  (symmetryBC p.g (gsLoop p.g (cells p.g) (p.intBC (p.extBC T)) 0).1,
   computeError p.g
     (symmetryBC p.g (gsLoop p.g (cells p.g) (p.intBC (p.extBC T)) 0).1) T)

/-- Solver.setIterator: map the iterator-name string to the step function
assigned to self.iterate; any unrecognised string falls through to
numpyStep without an error. -/
def iterateOf (it : String) : SolverP → TField → TField × ℝ :=
  if it = "numpy" then numpyStep
  else if it = "blitz" then blitzStep
  else if it = "inline" then inlineStep
  else numpyStep

/-- A small concrete grid: nr = 3, nt = 2 (mesh 4 x 3), radii 1..3,
angles 0..1, giving dr = 1, dTheta = 1, twoDrR = 4, dr2 = 1, dTheta2R2 = 4
and dnr = 5/2 at the interior column. -/
def gW : Grid := mkGrid 3 2 1 3 0 1

/-- Solver configuration on gW with fixed-temperature boundary conditions
T_ext = T_int = 0. -/
def pW : SolverP := ⟨gW, tubeExtTemp gW 0, tubeIntTemp 0⟩

/-- Solver configuration on gW with fixed external temperature 0 and the
convective internal condition (R_f = 0, h_int = 1, k = 1, T_int = 0), under
which meshT[:, 0] becomes meshT[:, 1] / 2. -/
def pConv : SolverP := ⟨gW, tubeExtTemp gW 0, tubeIntConv gW 0 1 1 0⟩

/-- A mesh state that is 10 at cell (2, 1) and 0 elsewhere. -/
def TW : TField := fun i j => if i = 2 ∧ j = 1 then 10 else 0

/-- The all-zero mesh state. -/
def TW0 : TField := fun _ _ => 0

/-- Mirror equality of the ghost rows with their image rows on the interior
radial columns 1..nr-2 only (the columns symmetryBC writes). -/
def MirrorInt (g : Grid) (T : TField) : Prop :=
  ∀ j, 1 ≤ j → j ≤ g.nr - 2 → T 0 j = T 2 j ∧ T (g.ntM - 1) j = T (g.ntM - 3) j

/-- Mirror equality of the ghost rows with their image rows on all radial
columns, the first and last included. -/
def MirrorFull (g : Grid) (T : TField) : Prop :=
  ∀ j, j < g.nr → T 0 j = T 2 j ∧ T (g.ntM - 1) j = T (g.ntM - 3) j

/-- The mesh state after k invocations of the assigned step function,
starting from s. -/
def iterN {α : Type} (iterate : α → α × ℝ) (s : α) : ℕ → α
  | 0 => s
  | k + 1 => (iterate (iterN iterate s k)).1

/-- The error value returned by sweep number k + 1 (sweeps are counted
from 1 as in Solver.solve). -/
def errOf {α : Type} (iterate : α → α × ℝ) (s : α) (k : ℕ) : ℝ :=
  (iterate (iterN iterate s k)).2

/-- The while loop of Solver.solve: on entry err holds the error of sweep
number count.  If err is at or below eps the loop exits and solve returns
the iteration count; otherwise, when n_iter is nonzero and count has
reached it, solve returns the last error; otherwise another sweep runs.
The fuel argument makes the possibly diverging loop total (none = fuel
exhausted). -/
def solveGo {α : Type} (iterate : α → α × ℝ) (nIter : ℕ) (eps : ℝ) :
    ℕ → α → ℕ → ℝ → Option (α × (ℕ ⊕ ℝ))
  | 0, st, count, err =>
      if err ≤ eps then some (st, Sum.inl count)
      else if nIter ≠ 0 ∧ nIter ≤ count then some (st, Sum.inr err)
      else none
  | fuel + 1, st, count, err =>
      if err ≤ eps then some (st, Sum.inl count)
      else if nIter ≠ 0 ∧ nIter ≤ count then some (st, Sum.inr err)
      else solveGo iterate nIter eps fuel (iterate st).1 (count + 1) (iterate st).2

/-- Solver.solve: one unconditional first sweep, then the while loop with
count = 1.  The step function self.iterate is pluggable (setIterator), so
the state type and step are abstract; the result carries the final mesh
state together with either the iteration count (Sum.inl, convergence) or
the last error (Sum.inr, iteration budget exhausted). -/
def solve {α : Type} (iterate : α → α × ℝ) (nIter : ℕ) (eps : ℝ) (fuel : ℕ)
    (s : α) : Option (α × (ℕ ⊕ ℝ)) :=
  solveGo iterate nIter eps fuel (iterate s).1 1 (iterate s).2

/-- A concrete step function for the solve-loop witnesses: increments a
counter and reports error 0. -/
def itW : ℕ → ℕ × ℝ := fun n => (n + 1, 0)

/-- A second concrete step function, used by the other solve-loop
witness. -/
def itW2 : ℕ → ℕ × ℝ := fun n => (n + 3, 0)

/-- The first three fitted Fourier coefficients Solver.stress reads from a
curve-fit result: popt[0] (the mean), popt[1] (first cosine coefficient),
popt[2] (first sine coefficient).  The fit itself (scipy curve_fit) is an
external nonlinear-least-squares collaborator; stress only consumes the
returned coefficients. -/
structure FitCoeffs where
  a0 : ℝ
  B : ℝ
  D : ℝ

/-- The geometry and material parameters Solver.stress reads: inner and
outer radii a and b, internal pressure P_i, thermal expansion alpha,
modulus E, Poisson ratio nu, and the bending switch. -/
structure StressParams where
  a : ℝ
  b : ℝ
  P_i : ℝ
  alpha : ℝ
  E : ℝ
  nu : ℝ
  bend : Bool

/-- The constant C = alpha E / (2 (1 - nu)) of Solver.stress. -/
def fitC (q : StressParams) : ℝ := q.alpha * q.E / (2 * (1 - q.nu))

/-- The axisymmetric coefficient kappa = (Tbar_i - Tbar_o) / log(b/a). -/
def kappa (q : StressParams) (ci co : FitCoeffs) : ℝ :=
  (ci.a0 - co.a0) / Real.log (q.b / q.a)

/-- The nonaxisymmetric coefficient kappa_theta of Solver.stress. -/
def kappa_theta (q : StressParams) (ci co : FitCoeffs) (r th : ℝ) : ℝ :=
  ((((ci.B * q.b - co.B * q.a) / (q.b ^ 2 + q.a ^ 2)) * Real.cos th) +
   (((ci.D * q.b - co.D * q.a) / (q.b ^ 2 + q.a ^ 2)) * Real.sin th)) *
    (r * q.a * q.b) / (q.b ^ 2 - q.a ^ 2)

/-- The nonaxisymmetric shear coefficient kappa_tau of Solver.stress. -/
def kappa_tau (q : StressParams) (ci co : FitCoeffs) (r th : ℝ) : ℝ :=
  ((((ci.B * q.b - co.B * q.a) / (q.b ^ 2 + q.a ^ 2)) * Real.sin th) -
   (((ci.D * q.b - co.D * q.a) / (q.b ^ 2 + q.a ^ 2)) * Real.cos th)) *
    (r * q.a * q.b) / (q.b ^ 2 - q.a ^ 2)

/-- The optional pipe-bending term kappa_noM of Solver.stress (0 when
bending is disabled). -/
def kappa_noM (q : StressParams) (ci co : FitCoeffs) (r th : ℝ) : ℝ :=
  if q.bend then
    r * ((((ci.B * q.a) + (co.B * q.b)) / (q.b ^ 2 + q.a ^ 2) * Real.cos th) +
         (((ci.D * q.a) + (co.D * q.b)) / (q.b ^ 2 + q.a ^ 2) * Real.sin th))
  else 0

/-- The nonaxisymmetric temperature remainder T_theta at a mesh point with
temperature Tval and radius r. -/
def T_theta (q : StressParams) (ci co : FitCoeffs) (Tval r : ℝ) : ℝ :=
  Tval - (ci.a0 - co.a0) * Real.log (q.b / r) / Real.log (q.b / q.a) - co.a0

/-- Thermal radial stress QR at a mesh point: axisymmetric term plus the
nonaxisymmetric increment. -/
def QR (q : StressParams) (ci co : FitCoeffs) (r th : ℝ) : ℝ :=
  kappa q ci co * fitC q * (- Real.log (q.b / r) -
    (q.a ^ 2 / (q.b ^ 2 - q.a ^ 2) * (1 - q.b ^ 2 / r ^ 2) * Real.log (q.b / q.a)))
  + fitC q * kappa_theta q ci co r th * (1 - q.a ^ 2 / r ^ 2) * (1 - q.b ^ 2 / r ^ 2)

/-- Thermal tangential stress QTheta at a mesh point. -/
def QTheta (q : StressParams) (ci co : FitCoeffs) (r th : ℝ) : ℝ :=
  kappa q ci co * fitC q * (1 - Real.log (q.b / r) -
    (q.a ^ 2 / (q.b ^ 2 - q.a ^ 2) * (1 + q.b ^ 2 / r ^ 2) * Real.log (q.b / q.a)))
  + fitC q * kappa_theta q ci co r th *
      (3 - (q.a ^ 2 + q.b ^ 2) / r ^ 2 - (q.a ^ 2 * q.b ^ 2) / r ^ 4)

/-- Thermal axial stress QZ at a mesh point (reads the local temperature
through T_theta). -/
def QZ (q : StressParams) (ci co : FitCoeffs) (Tval r th : ℝ) : ℝ :=
  kappa q ci co * fitC q * (1 - 2 * Real.log (q.b / r) -
    2 * q.a ^ 2 / (q.b ^ 2 - q.a ^ 2) * Real.log (q.b / q.a))
  + q.alpha * q.E * ((kappa_theta q ci co r th * (q.nu / (1 - q.nu)) *
      (2 - (q.a ^ 2 + q.b ^ 2) / r ^ 2)) + kappa_noM q ci co r th -
      T_theta q ci co Tval r)

/-- Thermal shear stress QRTheta at a mesh point. -/
def QRTheta (q : StressParams) (ci co : FitCoeffs) (r th : ℝ) : ℝ :=
  fitC q * kappa_tau q ci co r th * (1 - q.a ^ 2 / r ^ 2) * (1 - q.b ^ 2 / r ^ 2)

/-- Lame pressure-only radial stress PR. -/
def PR (q : StressParams) (r : ℝ) : ℝ :=
  (q.a ^ 2 * q.P_i / (q.b ^ 2 - q.a ^ 2)) * (1 - q.b ^ 2 / r ^ 2)

/-- Lame pressure-only tangential stress PTheta. -/
def PTheta (q : StressParams) (r : ℝ) : ℝ :=
  (q.a ^ 2 * q.P_i / (q.b ^ 2 - q.a ^ 2)) * (1 + q.b ^ 2 / r ^ 2)

/-- Pressure-only axial stress: the source sets PZ = 0 (the alternative
closed-end expression is commented out). -/
def PZ (q : StressParams) : ℝ := 0

/-- Total radial stress sigmaR = QR + PR. -/
def sigmaR (q : StressParams) (ci co : FitCoeffs) (r th : ℝ) : ℝ :=
  QR q ci co r th + PR q r

/-- Total tangential stress sigmaTheta = QTheta + PTheta. -/
def sigmaTheta (q : StressParams) (ci co : FitCoeffs) (r th : ℝ) : ℝ :=
  QTheta q ci co r th + PTheta q r

/-- Total axial stress sigmaZ = QZ + PZ. -/
def sigmaZ (q : StressParams) (ci co : FitCoeffs) (Tval r th : ℝ) : ℝ :=
  QZ q ci co Tval r th + PZ q

/-- Total shear stress sigmaRTheta = QRTheta. -/
def sigmaRTheta (q : StressParams) (ci co : FitCoeffs) (r th : ℝ) : ℝ :=
  QRTheta q ci co r th

/-- The exact least-squares Fourier coefficients of a spatially constant
boundary temperature profile c: mean c and zero harmonics. -/
def uniformFit (c : ℝ) : FitCoeffs := ⟨c, 0, 0⟩

/-- Concrete stress parameters for witnesses: a = 1, b = 2, P_i = 1,
alpha = 2, E = 3, nu = 1/4, no bending. -/
def qw : StressParams := ⟨1, 2, 1, 2, 3, 1/4, false⟩

/-- The initial-guess vector p0 = [1.0] * (1 + (s.n * 2)) built in
Solver.stress for the curve fits.  Faithful to the source, the length is
computed from the Fourier order of the module-level solver `s` created by
the demonstration script (globalN), not from the instance field self.n
(selfN), which the expression does not read. -/
def stressP0 (selfN globalN : ℕ) : List ℝ := List.replicate (1 + globalN * 2) 1.0

/-- The pair of initial-guess vectors Solver.stress passes to the inner
and outer boundary curve fits: the same p0 is passed to both calls. -/
def stressFitGuesses (selfN globalN : ℕ) : List ℝ × List ℝ :=
  (stressP0 selfN globalN, stressP0 selfN globalN)

/-- The fluid-property bundle HTC reads: density, heat capacity,
viscosity, conductivity, kinematic viscosity, diffusivity, Prandtl number,
and the fluid-kind flag tested by isinstance(thermo, liquidSodium). -/
structure Thermo where
  rho : ℝ
  Cp : ℝ
  mu : ℝ
  kappa : ℝ
  nu : ℝ
  alpha : ℝ
  Pr : ℝ
  isLiquidSodium : Bool

/-- The quantities HTC computes: the derived flow descriptors U, mdot and
hcr, the Reynolds number, friction factor, pressure drop, Nusselt number,
the returned heat-transfer coefficient h, and the Biot number. -/
structure HTCOut where
  U : ℝ
  mdot : ℝ
  hcr : ℝ
  Re : ℝ
  f : ℝ
  DP_f : ℝ
  Nu : ℝ
  h : ℝ
  Bi : ℝ

/-- Cross-sectional area of pipe flow in HTC: A_d_i = pi (d_i / 2)^2 with
d_i = a * 2. -/
def flowArea (a : ℝ) : ℝ := Real.pi * (a * 2 / 2) ^ 2

/-- The mode-independent tail of HTC: Reynolds number, explicit turbulent
friction factor, pressure drop per metre, Nusselt number by fluid-kind
dispatch (Skupinski-Tortel-Vautrey for liquid sodium, Dittus-Boelter
otherwise), heat-transfer coefficient and Biot number. -/
def HTCtail (thermo : Thermo) (a b k U mdot hcr : ℝ) : HTCOut :=
  let d_i := a * 2
  let t := b - a
  let Re := U * d_i / thermo.nu
  let f := (0.790 * Real.log Re - 1.64) ^ (-2 : ℤ)
  let DP_f := -f * (0.5 * thermo.rho * U ^ 2) / d_i
  let Nu := if thermo.isLiquidSodium then
              4.82 + 0.0185 * (Re * thermo.Pr) ^ (0.827 : ℝ)
            else 0.023 * Re ^ (0.8 : ℝ) * thermo.Pr ^ (0.4 : ℝ)
  let h := Nu * thermo.kappa / d_i
  let Bi := t * h / k
  ⟨U, mdot, hcr, Re, f, DP_f, Nu, h, Bi⟩

/-- The HTC function: dispatch on the mode string to derive (U, mdot, hcr)
from the given flow descriptor, then compute the correlation tail.  An
unrecognised mode is the sys.exit branch of the source, modelled as an
error result produced before anything is computed. -/
def HTC (thermo : Thermo) (a b k : ℝ) (mode : String) (arg : ℝ) :
    Except String HTCOut :=
  if mode = "velocity" then
    .ok (HTCtail thermo a b k arg (arg * (flowArea a * thermo.rho))
      ((arg * (flowArea a * thermo.rho)) * thermo.Cp))
  else if mode = "mdot" then
    .ok (HTCtail thermo a b k (arg / (flowArea a * thermo.rho)) arg
      (arg * thermo.Cp))
  else if mode = "heatCapRate" then
    .ok (HTCtail thermo a b k ((arg / thermo.Cp) / (flowArea a * thermo.rho))
      (arg / thermo.Cp) arg)
  else .error "Incorrect mode in HTC(mode, thermo, a, arg)!"

/-- Concrete fluid properties (all 1, not liquid sodium) for the HTC
witness. -/
def thermoW : Thermo := ⟨1, 1, 1, 1, 1, 1, 1, false⟩

/-! Helper lemmas and the theorems settling the claims. -/

lemma symmetryBC1_of_ne (g : Grid) (T : TField) {i j : ℕ}
    (h : ¬(i = 0 ∧ 1 ≤ j ∧ j ≤ g.nr - 2)) : symmetryBC1 g T i j = T i j :=
  if_neg h

lemma symmetryBC1_row0 (g : Grid) (T : TField) {j : ℕ}
    (h1 : 1 ≤ j) (h2 : j ≤ g.nr - 2) : symmetryBC1 g T 0 j = T 2 j :=
  if_pos ⟨rfl, h1, h2⟩

lemma symmetryBC_of_ne (g : Grid) (T : TField) {i j : ℕ}
    (h0 : ¬(i = 0 ∧ 1 ≤ j ∧ j ≤ g.nr - 2))
    (hM : ¬(i = g.ntM - 1 ∧ 1 ≤ j ∧ j ≤ g.nr - 2)) :
    symmetryBC g T i j = T i j := by
  unfold symmetryBC
  rw [if_neg hM, symmetryBC1_of_ne g T h0]

lemma symmetryBC_row0 (g : Grid) (T : TField) {j : ℕ} (hg : 2 ≤ g.ntM)
    (h1 : 1 ≤ j) (h2 : j ≤ g.nr - 2) : symmetryBC g T 0 j = T 2 j := by
  unfold symmetryBC
  rw [if_neg (by omega : ¬((0:ℕ) = g.ntM - 1 ∧ 1 ≤ j ∧ j ≤ g.nr - 2)),
    symmetryBC1_row0 g T h1 h2]

lemma symmetryBC_rowLast (g : Grid) (T : TField) {j : ℕ} (hg : 4 ≤ g.ntM)
    (h1 : 1 ≤ j) (h2 : j ≤ g.nr - 2) :
    symmetryBC g T (g.ntM - 1) j = T (g.ntM - 3) j := by
  unfold symmetryBC
  rw [if_pos ⟨rfl, h1, h2⟩,
    symmetryBC1_of_ne g T (by omega : ¬(g.ntM - 3 = 0 ∧ 1 ≤ j ∧ j ≤ g.nr - 2))]

lemma interiorUpd_of_interior (g : Grid) (T : TField) {i j : ℕ}
    (h : interior g i j) : interiorUpd g T i j = stencil g T i j :=
  if_pos h

lemma interiorUpd_of_not (g : Grid) (T : TField) {i j : ℕ}
    (h : ¬interior g i j) : interiorUpd g T i j = T i j :=
  if_neg h

lemma mem_cells {g : Grid} {i j : ℕ} (h : (i, j) ∈ cells g) : interior g i j := by
  unfold cells at h
  rw [List.mem_flatMap] at h
  obtain ⟨a, ha, hm⟩ := h
  rw [List.mem_map] at hm
  obtain ⟨b, hb, he⟩ := hm
  rw [List.mem_range'_1] at ha hb
  cases he
  exact ⟨ha.1, by omega, hb.1, by omega⟩

lemma gsLoop_fixed {g : Grid} {T : TField} (e : ℝ) (cs : List (ℕ × ℕ))
    (h : ∀ i j, (i, j) ∈ cs → stencil g T i j = T i j) :
    gsLoop g cs T e = (T, e) := by
  induction cs with
  | nil => rfl
  | cons c rest ih =>
      obtain ⟨i, j⟩ := c
      have hv : stencil g T i j = T i j := h i j (List.mem_cons_self _ _)
      have hupd : updTF T i j (stencil g T i j) = T := by
        funext i2 j2
        unfold updTF
        split
        · next heq => rw [hv, heq.1, heq.2]
        · rfl
      show gsLoop g rest (updTF T i j (stencil g T i j))
          (e + (stencil g T i j - T i j) ^ 2) = (T, e)
      rw [hupd, hv]
      simp only [sub_self, ne_eq, OfNat.ofNat_ne_zero, not_false_eq_true,
        zero_pow, add_zero]
      exact ih fun a b hm => h a b (List.mem_cons_of_mem _ hm)

lemma computeError_self (g : Grid) (T : TField) : computeError g T T = 0 := by
  simp [computeError]

lemma cellsW : cells gW = [(1, 1), (2, 1)] := rfl

/-- Claim C1 as stated is false: from the state TW under fixed-temperature
boundary conditions, one numpyStep and one inlineStep produce different
updated meshes at cell (2, 1) (the numpy expression updates all interior
cells simultaneously from the pre-sweep field, while the inline C loop
reads the already-updated cell (1, 1)). -/
theorem claim_C1_counterexample :
    (numpyStep pW TW).1 2 1 ≠ (inlineStep pW TW).1 2 1 := by
  have ha : (numpyStep pW TW).1 2 1 = 0 := by
    show symmetryBC gW (interiorUpd gW (tubeIntTemp 0 (tubeExtTemp gW 0 TW))) 2 1 = 0
    norm_num [symmetryBC, symmetryBC1, Grid.ntM, gW, mkGrid, interiorUpd,
      interior, stencil, tubeIntTemp, tubeExtTemp, TW]
  have hb : (inlineStep pW TW).1 2 1 = 1 / 10 := by
    show symmetryBC gW
        (gsLoop gW (cells gW) (tubeIntTemp 0 (tubeExtTemp gW 0 TW)) 0).1 2 1 = 1 / 10
    rw [cellsW]
    norm_num [gsLoop, updTF, symmetryBC, symmetryBC1, Grid.ntM, gW, mkGrid,
      interior, stencil, tubeIntTemp, tubeExtTemp, TW]
  rw [ha, hb]
  norm_num

/-- Claim C1, amended: the two step implementations share the boundary
conditions and the per-cell stencil, and they are interchangeable exactly
on converged states - if applying the boundary conditions, the stencil at
every interior cell, and the symmetry synchronisation all leave the mesh
unchanged, then one invocation of numpyStep and of inlineStep return the
same (unchanged) mesh and the same error 0.  In general a single
invocation differs in both mesh and error, because numpyStep updates the
interior simultaneously (Jacobi) and measures the change of the whole mesh
while inlineStep updates sequentially in place (Gauss-Seidel) and measures
only the interior-cell changes. -/
theorem claim_C1_amended (p : SolverP) (T : TField)
    (hbc : p.intBC (p.extBC T) = T)
    (hst : ∀ i j, interior p.g i j → stencil p.g T i j = T i j)
    (hsym : symmetryBC p.g T = T) :
    numpyStep p T = inlineStep p T ∧ (numpyStep p T).2 = 0 ∧
      (numpyStep p T).1 = T := by
  have hint : interiorUpd p.g T = T := by
    funext i j
    unfold interiorUpd
    split
    · exact hst i j ‹_›
    · rfl
  have hnum : numpyStep p T = (T, 0) := by
    unfold numpyStep
    rw [hbc, hint, hsym, computeError_self]
  have hgs : gsLoop p.g (cells p.g) T 0 = (T, 0) := by
    refine gsLoop_fixed 0 (cells p.g) ?_
    intro i j hm
    exact hst i j (mem_cells hm)
  have hinl : inlineStep p T = (T, 0) := by
    unfold inlineStep
    rw [hbc, hgs]
    simp [hsym]
  rw [hnum, hinl]
  exact ⟨rfl, rfl, rfl⟩

/-- Witness for the amended claim C1 at the all-zero converged state on the
concrete configuration pW. -/
theorem claim_C1_amended_witness :
    numpyStep pW TW0 = inlineStep pW TW0 ∧ (numpyStep pW TW0).2 = 0 ∧
      (numpyStep pW TW0).1 = TW0 :=
  claim_C1_amended pW TW0
    (by
      funext i j
      simp [tubeIntTemp, tubeExtTemp, TW0, pW])
    (by
      intro i j _
      simp [stencil, TW0])
    (by
      funext i j
      simp [symmetryBC, symmetryBC1, TW0])

/-- Claim C4: one numpyStep sweep applies the external then the internal
boundary condition, replaces every interior cell by the five-point stencil
of the post-boundary-condition field (evaluated simultaneously), re-applies
the ghost-row symmetry synchronisation, and returns the L2 norm of the
change of the whole mesh against the field saved before the sweep. -/
theorem claim_C4 (p : SolverP) (T : TField) (h4 : 2 ≤ p.g.nt) :
    (∀ i j, 1 ≤ i → i ≤ p.g.nt → 1 ≤ j → j ≤ p.g.nr - 2 →
      (numpyStep p T).1 i j =
        ((p.intBC (p.extBC T) i (j + 1) - p.intBC (p.extBC T) i (j - 1)) /
            p.g.twoDrR i j +
         (p.intBC (p.extBC T) i (j - 1) + p.intBC (p.extBC T) i (j + 1)) /
            p.g.dr2 +
         (p.intBC (p.extBC T) (i - 1) j + p.intBC (p.extBC T) (i + 1) j) /
            p.g.dTheta2R2 i j) / p.g.dnr i j)
    ∧ (∀ j, 1 ≤ j → j ≤ p.g.nr - 2 →
        (numpyStep p T).1 0 j = (numpyStep p T).1 2 j ∧
        (numpyStep p T).1 (p.g.nt + 1) j = (numpyStep p T).1 (p.g.nt - 1) j)
    ∧ (numpyStep p T).2 =
        Real.sqrt (∑ i ∈ Finset.range (p.g.nt + 2), ∑ j ∈ Finset.range p.g.nr,
          ((numpyStep p T).1 i j - T i j) ^ 2) := by
  have hg4 : 4 ≤ p.g.ntM := by unfold Grid.ntM; omega
  refine ⟨?_, ?_, ?_⟩
  · intro i j h1 h2 h3 h5
    show symmetryBC p.g (interiorUpd p.g (p.intBC (p.extBC T))) i j = _
    rw [symmetryBC_of_ne _ _ (by omega) (by simp only [Grid.ntM]; omega),
      interiorUpd_of_interior _ _ ⟨h1, h2, h3, h5⟩]
    rfl
  · intro j h1 h2
    constructor
    · show symmetryBC p.g (interiorUpd p.g (p.intBC (p.extBC T))) 0 j =
        symmetryBC p.g (interiorUpd p.g (p.intBC (p.extBC T))) 2 j
      rw [symmetryBC_row0 _ _ (by omega) h1 h2,
        symmetryBC_of_ne _ _ (by omega) (by simp only [Grid.ntM]; omega)]
    · show symmetryBC p.g (interiorUpd p.g (p.intBC (p.extBC T))) (p.g.nt + 1) j =
        symmetryBC p.g (interiorUpd p.g (p.intBC (p.extBC T))) (p.g.nt - 1) j
      have hM1 : p.g.nt + 1 = p.g.ntM - 1 := by simp [Grid.ntM]
      have hM3 : p.g.ntM - 3 = p.g.nt - 1 := by simp [Grid.ntM]
      rw [hM1, symmetryBC_rowLast _ _ hg4 h1 h2, hM3,
        symmetryBC_of_ne _ _ (by omega) (by simp only [Grid.ntM]; omega)]
  · rfl

/-- Witness for claim C4 on the concrete configuration pW and state TW:
the ghost rows mirror their image rows after the sweep. -/
theorem claim_C4_witness :
    2 ≤ pW.g.nt ∧
    ((numpyStep pW TW).1 0 1 = (numpyStep pW TW).1 2 1 ∧
     (numpyStep pW TW).1 (pW.g.nt + 1) 1 = (numpyStep pW TW).1 (pW.g.nt - 1) 1) :=
  ⟨le_refl 2, (claim_C4 pW TW (le_refl 2)).2.1 1 (le_refl 1) (le_refl 1)⟩

/-- Claim C3 as stated is false: with the convective internal boundary
condition, one numpyStep sweep from the state TW (whose ghost row 0 and
interior row 2 differ at column 1) leaves ghost row 0 and row 2 different
at the first radial column, because symmetryBC copies only the interior
columns and the internal boundary condition wrote column 0 of the two rows
from their unequal pre-sweep column-1 values. -/
theorem claim_C3_counterexample :
    (numpyStep pConv TW).1 0 0 ≠ (numpyStep pConv TW).1 2 0 := by
  have ha : (numpyStep pConv TW).1 0 0 = 0 := by
    show symmetryBC gW
        (interiorUpd gW (tubeIntConv gW 0 1 1 0 (tubeExtTemp gW 0 TW))) 0 0 = 0
    norm_num [symmetryBC, symmetryBC1, Grid.ntM, gW, mkGrid, interiorUpd,
      interior, stencil, tubeIntConv, tubeExtTemp, TW]
  have hb : (numpyStep pConv TW).1 2 0 = 5 := by
    show symmetryBC gW
        (interiorUpd gW (tubeIntConv gW 0 1 1 0 (tubeExtTemp gW 0 TW))) 2 0 = 5
    norm_num [symmetryBC, symmetryBC1, Grid.ntM, gW, mkGrid, interiorUpd,
      interior, stencil, tubeIntConv, tubeExtTemp, TW]
  rw [ha, hb]
  norm_num

/-- Claim C3, amended: after every numpyStep sweep the ghost rows equal
their image rows exactly on the interior radial columns, from any state.
Full-row equality, the first and last columns included, additionally holds
whenever the pre-sweep state already satisfies the interior-column mirror
equality (as the uniform initial field and every post-sweep state do) and
the composed boundary conditions produce mirror-equal values in the first
and last columns of mirror rows on such states (as the catalogue conditions
do on the default symmetric angular domain). -/
theorem claim_C3_amended (p : SolverP) (h4 : 2 ≤ p.g.nt)
    (hbcM : ∀ S, MirrorInt p.g S →
      p.intBC (p.extBC S) 0 0 = p.intBC (p.extBC S) 2 0 ∧
      p.intBC (p.extBC S) 0 (p.g.nr - 1) = p.intBC (p.extBC S) 2 (p.g.nr - 1) ∧
      p.intBC (p.extBC S) (p.g.ntM - 1) 0 = p.intBC (p.extBC S) (p.g.ntM - 3) 0 ∧
      p.intBC (p.extBC S) (p.g.ntM - 1) (p.g.nr - 1) =
        p.intBC (p.extBC S) (p.g.ntM - 3) (p.g.nr - 1)) :
    (∀ S, MirrorInt p.g ((numpyStep p S).1)) ∧
    (∀ T, MirrorInt p.g T → MirrorFull p.g ((numpyStep p T).1)) := by
  have hg2 : 2 ≤ p.g.ntM := by unfold Grid.ntM; omega
  have hg4 : 4 ≤ p.g.ntM := by unfold Grid.ntM; omega
  have hfirst : ∀ S, MirrorInt p.g ((numpyStep p S).1) := by
    intro S j h1 h2
    constructor
    · show symmetryBC p.g (interiorUpd p.g (p.intBC (p.extBC S))) 0 j =
        symmetryBC p.g (interiorUpd p.g (p.intBC (p.extBC S))) 2 j
      rw [symmetryBC_row0 _ _ hg2 h1 h2,
        symmetryBC_of_ne _ _ (by omega) (by omega)]
    · show symmetryBC p.g (interiorUpd p.g (p.intBC (p.extBC S))) (p.g.ntM - 1) j =
        symmetryBC p.g (interiorUpd p.g (p.intBC (p.extBC S))) (p.g.ntM - 3) j
      rw [symmetryBC_rowLast _ _ hg4 h1 h2,
        symmetryBC_of_ne _ _ (by omega) (by omega)]
  refine ⟨hfirst, ?_⟩
  intro T hT j hj
  by_cases hcol : 1 ≤ j ∧ j ≤ p.g.nr - 2
  · exact hfirst T j hcol.1 hcol.2
  · have hbc := hbcM T hT
    have hsym : ∀ i, symmetryBC p.g (interiorUpd p.g (p.intBC (p.extBC T))) i j =
        p.intBC (p.extBC T) i j := by
      intro i
      rw [symmetryBC_of_ne _ _ (fun h => hcol h.2) (fun h => hcol h.2),
        interiorUpd_of_not _ _ (fun h => hcol ⟨h.2.2.1, h.2.2.2⟩)]
    have hshow : (numpyStep p T).1 0 j = (numpyStep p T).1 2 j ∧
        (numpyStep p T).1 (p.g.ntM - 1) j = (numpyStep p T).1 (p.g.ntM - 3) j ↔
        (p.intBC (p.extBC T) 0 j = p.intBC (p.extBC T) 2 j ∧
         p.intBC (p.extBC T) (p.g.ntM - 1) j =
           p.intBC (p.extBC T) (p.g.ntM - 3) j) := by
      constructor
      · intro h
        constructor
        · rw [← hsym 0, ← hsym 2]; exact h.1
        · rw [← hsym (p.g.ntM - 1), ← hsym (p.g.ntM - 3)]; exact h.2
      · intro h
        constructor
        · show symmetryBC p.g (interiorUpd p.g (p.intBC (p.extBC T))) 0 j =
            symmetryBC p.g (interiorUpd p.g (p.intBC (p.extBC T))) 2 j
          rw [hsym 0, hsym 2]; exact h.1
        · show symmetryBC p.g (interiorUpd p.g (p.intBC (p.extBC T))) (p.g.ntM - 1) j =
            symmetryBC p.g (interiorUpd p.g (p.intBC (p.extBC T))) (p.g.ntM - 3) j
          rw [hsym _, hsym _]; exact h.2
    rw [hshow]
    have hj2 : j = 0 ∨ j = p.g.nr - 1 := by omega
    rcases hj2 with rfl | rfl
    · exact ⟨hbc.1, hbc.2.2.1⟩
    · exact ⟨hbc.2.1, hbc.2.2.2⟩

/-- Witness for the amended claim C3: on the concrete convective
configuration pConv, starting from the uniform zero state, one sweep
produces full-row mirror equality. -/
theorem claim_C3_amended_witness :
    2 ≤ pConv.g.nt ∧ MirrorFull pConv.g ((numpyStep pConv TW0).1) :=
  ⟨le_refl 2,
    (claim_C3_amended pConv (le_refl 2)
      (by
        intro S hS
        obtain ⟨e1, e2⟩ := hS 1 (le_refl 1) (le_refl 1)
        have h31 : pConv.g.ntM - 1 = 3 := rfl
        have h33 : pConv.g.ntM - 3 = 1 := rfl
        rw [h31, h33] at e2 ⊢
        refine ⟨?_, ?_, ?_, ?_⟩ <;>
          simp [tubeIntConv, tubeExtTemp, pConv, gW, mkGrid, e1, e2])).2
      TW0 (fun _ _ _ => ⟨rfl, rfl⟩)⟩

lemma solveGo_run {α : Type} (iterate : α → α × ℝ) (nIter : ℕ) (eps : ℝ) (s : α) :
    ∀ fuel count, 1 ≤ count →
      (∀ k, k < count - 1 → eps < errOf iterate s k) →
      (nIter ≠ 0 → count ≤ nIter) →
      ((∀ st c, solveGo iterate nIter eps fuel (iterN iterate s count) count
            (errOf iterate s (count - 1)) = some (st, Sum.inl c) →
          1 ≤ c ∧ errOf iterate s (c - 1) ≤ eps ∧
          (∀ k, k < c - 1 → eps < errOf iterate s k) ∧
          (nIter = 0 ∨ c ≤ nIter) ∧ st = iterN iterate s c)
       ∧ (∀ st e, solveGo iterate nIter eps fuel (iterN iterate s count) count
            (errOf iterate s (count - 1)) = some (st, Sum.inr e) →
          nIter ≠ 0 ∧ e = errOf iterate s (nIter - 1) ∧
          (∀ k, k < nIter → eps < errOf iterate s k) ∧ st = iterN iterate s nIter)
       ∧ (nIter ≠ 0 → nIter ≤ count + fuel →
          ∃ x, solveGo iterate nIter eps fuel (iterN iterate s count) count
            (errOf iterate s (count - 1)) = some x)) := by
  intro fuel
  induction fuel with
  | zero =>
      intro count h1 hpast hcap
      by_cases he : errOf iterate s (count - 1) ≤ eps
      · refine ⟨?_, ?_, ?_⟩
        · intro st c hsome
          rw [solveGo, if_pos he] at hsome
          obtain ⟨rfl, rfl⟩ : iterN iterate s count = st ∧ count = c := by
            simpa using hsome
          refine ⟨h1, he, hpast, ?_, rfl⟩
          by_cases hn : nIter = 0
          · exact Or.inl hn
          · exact Or.inr (hcap hn)
        · intro st e hsome
          rw [solveGo, if_pos he] at hsome
          simp at hsome
        · intro _ _
          exact ⟨_, by rw [solveGo, if_pos he]⟩
      · by_cases hb : nIter ≠ 0 ∧ nIter ≤ count
        · have hcnt : count = nIter := le_antisymm (hcap hb.1) hb.2
          refine ⟨?_, ?_, ?_⟩
          · intro st c hsome
            rw [solveGo, if_neg he, if_pos hb] at hsome
            simp at hsome
          · intro st e hsome
            rw [solveGo, if_neg he, if_pos hb] at hsome
            obtain ⟨rfl, rfl⟩ : iterN iterate s count = st ∧
                errOf iterate s (count - 1) = e := by simpa using hsome
            refine ⟨hb.1, by rw [hcnt], ?_, by rw [hcnt]⟩
            intro k hk
            rcases Nat.lt_or_ge k (count - 1) with hlt | hge
            · exact hpast k hlt
            · have : k = count - 1 := by omega
              rw [this]
              exact lt_of_not_le he
          · intro _ _
            exact ⟨_, by rw [solveGo, if_neg he, if_pos hb]⟩
        · refine ⟨?_, ?_, ?_⟩
          · intro st c hsome
            rw [solveGo, if_neg he, if_neg hb] at hsome
            simp at hsome
          · intro st e hsome
            rw [solveGo, if_neg he, if_neg hb] at hsome
            simp at hsome
          · intro hn hle
            exact absurd ⟨hn, by omega⟩ hb
  | succ fuel ih =>
      intro count h1 hpast hcap
      by_cases he : errOf iterate s (count - 1) ≤ eps
      · refine ⟨?_, ?_, ?_⟩
        · intro st c hsome
          rw [solveGo, if_pos he] at hsome
          obtain ⟨rfl, rfl⟩ : iterN iterate s count = st ∧ count = c := by
            simpa using hsome
          refine ⟨h1, he, hpast, ?_, rfl⟩
          by_cases hn : nIter = 0
          · exact Or.inl hn
          · exact Or.inr (hcap hn)
        · intro st e hsome
          rw [solveGo, if_pos he] at hsome
          simp at hsome
        · intro _ _
          exact ⟨_, by rw [solveGo, if_pos he]⟩
      · by_cases hb : nIter ≠ 0 ∧ nIter ≤ count
        · have hcnt : count = nIter := le_antisymm (hcap hb.1) hb.2
          refine ⟨?_, ?_, ?_⟩
          · intro st c hsome
            rw [solveGo, if_neg he, if_pos hb] at hsome
            simp at hsome
          · intro st e hsome
            rw [solveGo, if_neg he, if_pos hb] at hsome
            obtain ⟨rfl, rfl⟩ : iterN iterate s count = st ∧
                errOf iterate s (count - 1) = e := by simpa using hsome
            refine ⟨hb.1, by rw [hcnt], ?_, by rw [hcnt]⟩
            intro k hk
            rcases Nat.lt_or_ge k (count - 1) with hlt | hge
            · exact hpast k hlt
            · have : k = count - 1 := by omega
              rw [this]
              exact lt_of_not_le he
          · intro _ _
            exact ⟨_, by rw [solveGo, if_neg he, if_pos hb]⟩
        · have hrec : solveGo iterate nIter eps (fuel + 1) (iterN iterate s count) count
              (errOf iterate s (count - 1)) =
              solveGo iterate nIter eps fuel (iterN iterate s (count + 1)) (count + 1)
              (errOf iterate s (count + 1 - 1)) := by
            rw [solveGo, if_neg he, if_neg hb]
            rfl
          have hpast2 : ∀ k, k < count + 1 - 1 → eps < errOf iterate s k := by
            intro k hk
            rcases Nat.lt_or_ge k (count - 1) with hlt | hge
            · exact hpast k hlt
            · have : k = count - 1 := by omega
              rw [this]
              exact lt_of_not_le he
          have hcap2 : nIter ≠ 0 → count + 1 ≤ nIter := by
            intro hn
            rcases Nat.lt_or_ge count nIter with hlt | hge
            · omega
            · exact absurd ⟨hn, hge⟩ hb
          obtain ⟨ha, hbb, hcc⟩ := ih (count + 1) (by omega) hpast2 hcap2
          refine ⟨?_, ?_, ?_⟩
          · intro st c hsome
            rw [hrec] at hsome
            exact ha st c hsome
          · intro st e hsome
            rw [hrec] at hsome
            exact hbb st e hsome
          · intro hn hle
            rw [hrec]
            exact hcc hn (by omega)

/-- Claim C5: solve stops as soon as the sweep error is at or below eps,
returning the number of sweeps performed (the count of the first sweep
whose error is at or below eps, all earlier sweeps having larger error);
if n_iter is positive and the count reaches n_iter before the error falls
to eps, it instead returns the error of sweep n_iter (so the convergence
case carries Sum.inl, the budget-exhaustion case Sum.inr, and the caller
can distinguish them); with n_iter = 0 the budget branch is unreachable
and the loop runs uncapped; with a positive n_iter, fuel n_iter - 1
always suffices for the call to return. -/
theorem claim_C5 {α : Type} (iterate : α → α × ℝ) (nIter : ℕ) (eps : ℝ)
    (fuel : ℕ) (s : α) :
    (∀ st c, solve iterate nIter eps fuel s = some (st, Sum.inl c) →
        1 ≤ c ∧ errOf iterate s (c - 1) ≤ eps ∧
        (∀ k, k < c - 1 → eps < errOf iterate s k) ∧ (nIter = 0 ∨ c ≤ nIter))
    ∧ (∀ st e, solve iterate nIter eps fuel s = some (st, Sum.inr e) →
        nIter ≠ 0 ∧ e = errOf iterate s (nIter - 1) ∧
        ∀ k, k < nIter → eps < errOf iterate s k)
    ∧ (nIter ≠ 0 → nIter ≤ fuel + 1 → ∃ x, solve iterate nIter eps fuel s = some x) := by
  obtain ⟨ha, hb, hc⟩ := solveGo_run iterate nIter eps s fuel 1 (le_refl 1)
    (fun k hk => absurd hk (by omega)) (fun hn => Nat.one_le_iff_ne_zero.mpr hn)
  have hsolve : solve iterate nIter eps fuel s =
      solveGo iterate nIter eps fuel (iterN iterate s 1) 1 (errOf iterate s (1 - 1)) := rfl
  refine ⟨?_, ?_, ?_⟩
  · intro st c h
    rw [hsolve] at h
    obtain ⟨h1, h2, h3, h4, _⟩ := ha st c h
    exact ⟨h1, h2, h3, h4⟩
  · intro st e h
    rw [hsolve] at h
    obtain ⟨h1, h2, h3, _⟩ := hb st e h
    exact ⟨h1, h2, h3⟩
  · intro hn hle
    rw [hsolve]
    exact hc hn (by omega)

/-- Witness for claim C5: on the concrete step function itW with eps = 0
and no iteration cap, solve converges after the first sweep. -/
theorem claim_C5_witness :
    1 ≤ 1 ∧ errOf itW 0 0 ≤ 0 ∧ (∀ k, k < 1 - 1 → (0:ℝ) < errOf itW 0 k) ∧
      ((0:ℕ) = 0 ∨ 1 ≤ 0) :=
  (claim_C5 itW 0 0 0 0).1 1 1 (by simp [solve, solveGo, itW, iterN])

/-- Claim C10: solve always performs its first sweep unconditionally -
before any tolerance or budget check - and every state it returns is the
k-fold sweep of the initial state for some k at least 1, for every n_iter
and eps. -/
theorem claim_C10 {α : Type} (iterate : α → α × ℝ) (nIter : ℕ) (eps : ℝ)
    (fuel : ℕ) (s : α) :
    (∀ st r, solve iterate nIter eps fuel s = some (st, r) →
        ∃ k, 1 ≤ k ∧ st = iterN iterate s k)
    ∧ solve iterate nIter eps fuel s =
        solveGo iterate nIter eps fuel ((iterate s).1) 1 ((iterate s).2) := by
  obtain ⟨ha, hb, _⟩ := solveGo_run iterate nIter eps s fuel 1 (le_refl 1)
    (fun k hk => absurd hk (by omega)) (fun hn => Nat.one_le_iff_ne_zero.mpr hn)
  have hsolve : solve iterate nIter eps fuel s =
      solveGo iterate nIter eps fuel (iterN iterate s 1) 1 (errOf iterate s (1 - 1)) := rfl
  refine ⟨?_, rfl⟩
  intro st r h
  rw [hsolve] at h
  cases r with
  | inl c =>
      obtain ⟨h1, _, _, _, h5⟩ := ha st c h
      exact ⟨c, h1, h5⟩
  | inr e =>
      obtain ⟨h1, _, _, h4⟩ := hb st e h
      exact ⟨nIter, Nat.one_le_iff_ne_zero.mpr h1, h4⟩

/-- Witness for claim C10: on itW2 from state 5 with eps = 0, the
returned state 8 is a k-fold sweep image with k at least 1. -/
theorem claim_C10_witness : ∃ k, 1 ≤ k ∧ (8:ℕ) = iterN itW2 5 k :=
  (claim_C10 itW2 0 0 0 5).1 8 (Sum.inl 1) (by simp [solve, solveGo, itW2, iterN])

/-- Claim C9: setIterator maps any string outside numpy/blitz/inline to
the numpy step without raising, and the assigned iterate function is
always exactly one of the three step implementations. -/
theorem claim_C9 (it : String) :
    (it ∉ (["numpy", "blitz", "inline"] : List String) → iterateOf it = numpyStep)
    ∧ (iterateOf it = numpyStep ∨ iterateOf it = blitzStep ∨
        iterateOf it = inlineStep) := by
  constructor
  · intro h
    have h1 : it ≠ "numpy" := fun he => h (by rw [he]; simp)
    have h2 : it ≠ "blitz" := fun he => h (by rw [he]; simp)
    have h3 : it ≠ "inline" := fun he => h (by rw [he]; simp)
    unfold iterateOf
    rw [if_neg h1, if_neg h2, if_neg h3]
  · unfold iterateOf
    by_cases h1 : it = "numpy"
    · rw [if_pos h1]; exact Or.inl rfl
    · rw [if_neg h1]
      by_cases h2 : it = "blitz"
      · rw [if_pos h2]; exact Or.inr (Or.inl rfl)
      · rw [if_neg h2]
        by_cases h3 : it = "inline"
        · rw [if_pos h3]; exact Or.inr (Or.inr rfl)
        · rw [if_neg h3]; exact Or.inl rfl

/-- Witness for claim C9 at the unrecognised iterator name jacobi. -/
theorem claim_C9_witness : iterateOf "jacobi" = numpyStep :=
  (claim_C9 "jacobi").1 (by decide)

/-- Claim C7: for a uniform temperature field (value c everywhere, whose
exact Fourier fit is mean c with zero harmonics at both boundaries), all
four thermal stress components QR, QTheta, QZ and QRTheta vanish at every
mesh point - exactly, in real arithmetic - leaving only the pressure-only
components in the totals. -/
theorem claim_C7 (q : StressParams) (c r th : ℝ) :
    QR q (uniformFit c) (uniformFit c) r th = 0 ∧
    QTheta q (uniformFit c) (uniformFit c) r th = 0 ∧
    QZ q (uniformFit c) (uniformFit c) c r th = 0 ∧
    QRTheta q (uniformFit c) (uniformFit c) r th = 0 := by
  refine ⟨?_, ?_, ?_, ?_⟩ <;>
    simp [QR, QTheta, QZ, QRTheta, kappa, kappa_theta, kappa_tau, kappa_noM,
      T_theta, uniformFit]

/-- Claim C6: for every geometry with 0 < a < b and every nonzero internal
pressure, on the uniform temperature field produced by a solve with zero
absorbed flux (so the boundary fits are mean c with zero harmonics), the
total radial stress at the inner radius is exactly -P_i and the total
tangential stress at the inner radius is exactly the thick-cylinder Lame
value P_i (a^2 + b^2) / (b^2 - a^2). -/
theorem claim_C6 (q : StressParams) (c th : ℝ) (ha : 0 < q.a) (hab : q.a < q.b)
    (hP : q.P_i ≠ 0) :
    sigmaR q (uniformFit c) (uniformFit c) q.a th = -q.P_i ∧
    sigmaTheta q (uniformFit c) (uniformFit c) q.a th =
      q.P_i * (q.a ^ 2 + q.b ^ 2) / (q.b ^ 2 - q.a ^ 2) := by
  have h1 : q.a ≠ 0 := ne_of_gt ha
  have h2 : q.b ^ 2 - q.a ^ 2 ≠ 0 := by nlinarith
  have hQR : QR q (uniformFit c) (uniformFit c) q.a th = 0 := by
    simp [QR, kappa, kappa_theta, uniformFit]
  have hQT : QTheta q (uniformFit c) (uniformFit c) q.a th = 0 := by
    simp [QTheta, kappa, kappa_theta, uniformFit]
  constructor
  · rw [sigmaR, hQR, zero_add, PR]
    field_simp
    ring
  · rw [sigmaTheta, hQT, zero_add, PTheta]
    field_simp
    ring

/-- Witness for claim C6 on the concrete parameters qw. -/
theorem claim_C6_witness :
    0 < qw.a ∧ qw.a < qw.b ∧ qw.P_i ≠ 0 ∧
    (sigmaR qw (uniformFit 5) (uniformFit 5) qw.a 0 = -qw.P_i ∧
     sigmaTheta qw (uniformFit 5) (uniformFit 5) qw.a 0 =
       qw.P_i * (qw.a ^ 2 + qw.b ^ 2) / (qw.b ^ 2 - qw.a ^ 2)) :=
  ⟨by norm_num [qw], by norm_num [qw], by norm_num [qw],
    claim_C6 qw 5 0 (by norm_num [qw]) (by norm_num [qw]) (by norm_num [qw])⟩

/-- Claim C2 evaluation at the failing input: for a solver instance with
Fourier order self.n = 2 while the module-level script solver has n = 1,
the guess vector passed to both curve fits has length 3 = 1 + 2 * 1, not
1 + 2 * 2 = 5 as the instance field requires: Solver.stress reads the
global s.n instead of self.n. -/
theorem claim_C2_code_evaluation :
    (stressFitGuesses 2 1).1.length = 3 ∧
    (stressFitGuesses 2 1).2.length = 3 ∧
    (stressFitGuesses 2 1).1.length ≠ 1 + 2 * 2 := by
  refine ⟨?_, ?_, ?_⟩ <;> simp [stressFitGuesses, stressP0]

/-- Claim C8: HTC with a mode outside velocity/mdot/heatCapRate signals
the fatal invalid-argument failure before computing any result, and for
each recognised mode it returns a result whose flow descriptors satisfy
mdot = U * A * rho and hcr = mdot * Cp (for nonzero flow area times
density and nonzero heat capacity). -/
theorem claim_C8 (thermo : Thermo) (a b k arg : ℝ) (mode : String)
    (hA : flowArea a * thermo.rho ≠ 0) (hCp : thermo.Cp ≠ 0) :
    (mode ∉ (["velocity", "mdot", "heatCapRate"] : List String) →
      HTC thermo a b k mode arg =
        .error "Incorrect mode in HTC(mode, thermo, a, arg)!")
    ∧ (mode ∈ (["velocity", "mdot", "heatCapRate"] : List String) →
      ∃ res, HTC thermo a b k mode arg = .ok res ∧
        res.mdot = res.U * flowArea a * thermo.rho ∧
        res.hcr = res.mdot * thermo.Cp) := by
  constructor
  · intro hm
    have h1 : mode ≠ "velocity" := fun he => hm (by rw [he]; simp)
    have h2 : mode ≠ "mdot" := fun he => hm (by rw [he]; simp)
    have h3 : mode ≠ "heatCapRate" := fun he => hm (by rw [he]; simp)
    unfold HTC
    rw [if_neg h1, if_neg h2, if_neg h3]
  · intro hm
    simp only [List.mem_cons, List.mem_singleton, List.not_mem_nil, or_false] at hm
    rcases hm with rfl | rfl | rfl
    · have hok : HTC thermo a b k "velocity" arg =
          .ok (HTCtail thermo a b k arg (arg * (flowArea a * thermo.rho))
            ((arg * (flowArea a * thermo.rho)) * thermo.Cp)) := by
        unfold HTC
        rw [if_pos rfl]
      refine ⟨_, hok, ?_, ?_⟩
      · show arg * (flowArea a * thermo.rho) = arg * flowArea a * thermo.rho
        ring
      · show (arg * (flowArea a * thermo.rho)) * thermo.Cp =
          arg * (flowArea a * thermo.rho) * thermo.Cp
        ring
    · have hok : HTC thermo a b k "mdot" arg =
          .ok (HTCtail thermo a b k (arg / (flowArea a * thermo.rho)) arg
            (arg * thermo.Cp)) := by
        unfold HTC
        rw [if_neg (by decide), if_pos rfl]
      refine ⟨_, hok, ?_, ?_⟩
      · show arg = arg / (flowArea a * thermo.rho) * flowArea a * thermo.rho
        field_simp
        ring
      · show arg * thermo.Cp = arg * thermo.Cp
        rfl
    · have hok : HTC thermo a b k "heatCapRate" arg =
          .ok (HTCtail thermo a b k ((arg / thermo.Cp) / (flowArea a * thermo.rho))
            (arg / thermo.Cp) arg) := by
        unfold HTC
        rw [if_neg (by decide), if_neg (by decide), if_pos rfl]
      refine ⟨_, hok, ?_, ?_⟩
      · show arg / thermo.Cp =
          (arg / thermo.Cp) / (flowArea a * thermo.rho) * flowArea a * thermo.rho
        field_simp
        ring
      · show arg = arg / thermo.Cp * thermo.Cp
        field_simp

/-- Witness for claim C8 in mdot mode on the concrete fluid thermoW. -/
theorem claim_C8_witness :
    flowArea 1 * thermoW.rho ≠ 0 ∧ thermoW.Cp ≠ 0 ∧
    ∃ res, HTC thermoW 1 2 1 "mdot" 3 = .ok res ∧
      res.mdot = res.U * flowArea 1 * thermoW.rho ∧
      res.hcr = res.mdot * thermoW.Cp :=
  ⟨by simp [flowArea, thermoW, Real.pi_ne_zero],
   by norm_num [thermoW],
   (claim_C8 thermoW 1 2 1 3 "mdot"
     (by simp [flowArea, thermoW, Real.pi_ne_zero])
     (by norm_num [thermoW])).2 (by simp)⟩

end NTS
